import Mathlib

/-!
Shallow embedding of the client package of RXDA/httptransport
(src/client/client.go), covering the Client request pipeline and the
Result.Into response-decoding dispatch.

Modelling conventions:
* Go http.Header / courier.Metadata are association lists from a header
  key to its ordered value list; Header.Add appends a value to the
  first entry carrying the key (Go maps hold one entry per key).
* The HTTP executor (httpClient.Do), the request-transformer manager
  (RequestTransformerMgr.NewRequest) and each Transformer are external
  collaborators of this file; they are passed in as function parameters
  or function-valued fields, exactly at the call sites the source has.
* Go interface values are modelled by inductive types: the target of
  Result.Into is a tagged value recording which capabilities (error,
  io.Writer, header-setting) the dynamic value implements, and the
  dynamic behaviour of a call on it (copy outcome for a writer).
* Side effects Result.Into performs (closing the response body, copying
  bytes into a writer target, resolving a transformer, decoding the
  body) are recorded as an event trace in the returned value.
* A Go nil-pointer dereference or nil-function call is modelled by the
  whole call returning Option.none.
-/

/-- Go http.Header / courier.Metadata: key to ordered list of values. -/
abbrev Header := List (String × List String)

/-- courier.Metadata is the same shape as http.Header. -/
abbrev Metadata := Header

/-- http.Header.Add: append a value to the entry of the key, creating the
entry when absent. -/
def headerAdd : Header → String → String → Header
  | [], k, v => [(k, [v])]
  | (k0, vs) :: rest, k, v =>
    if k0 = k then (k0, vs ++ [v]) :: rest
    else (k0, vs) :: headerAdd rest k v

/-- The ordered value list a header carries under a key (first entry wins,
as in a Go map there is at most one entry per key). -/
def headerValues (h : Header) (k : String) : List String :=
  match h.find? (fun kv => kv.1 = k) with
  | some kv => kv.2
  | none => []

/-- courier.Metadata.Get / http.Header.Get: first value under the key, or
the empty string. -/
def metaGet (h : Header) (k : String) : String :=
  match headerValues h k with
  | [] => ""
  | v :: _ => v

/-- All values a (possibly duplicated-key) association list carries under a
key, in list order. -/
def metaValues : Header → String → List String
  | [], _ => []
  | kv :: rest, k =>
    (if kv.1 = k then kv.2 else []) ++ metaValues rest k

/-- The inner loop of Client.newRequest lines 141-143: add every value of
one metadata key. -/
def addAllValues (h : Header) (k : String) (vs : List String) : Header :=
  vs.foldl (fun h0 v => headerAdd h0 k v) h

/-- The loop of Client.newRequest lines 140-144: Header.Add for every
key/value pair of the merged metadata. -/
def addMetas (h : Header) (m : Metadata) : Header :=
  m.foldl (fun h0 kv => addAllValues h0 kv.1 kv.2) h

/-- courier.FromMetas: merge the variadic metadata arguments into one
metadata map, values appended per key. -/
def fromMetas (metas : List Metadata) : Metadata :=
  metas.foldl (fun acc m => addMetas acc m) []

/-- httpx.HeaderContentType. -/
def headerContentType : String := "Content-Type"

/-- ASCII lowercasing of one character. -/
def asciiLower (c : Char) : Char :=
  if 'A' ≤ c ∧ c ≤ 'Z' then Char.ofNat (c.toNat + 32) else c

def isSpaceChar (c : Char) : Bool :=
  c = ' ' || c = '\t' || c = '\n' || c = '\r'

/-- Remove leading and trailing whitespace. -/
def trimChars (cs : List Char) : List Char :=
  ((cs.dropWhile isSpaceChar).reverse.dropWhile isSpaceChar).reverse

/-- mime.ParseMediaType restricted to its media-type result on well-formed
input: the part before any parameter (the first semicolon), with
surrounding whitespace removed and ASCII letters lowercased. -/
def parseMediaType (v : String) : String :=
  String.mk ((trimChars (v.data.takeWhile (fun c => c != ';'))).map asciiLower)

/-- Error-kind constants of the client package (RequestTransformFailed,
RequestFailed, ReadFailed status errors). -/
inductive ErrKind where
  | requestTransformFailed
  | requestFailed
  | readFailed
  deriving DecidableEq, Repr

def ErrKind.str : ErrKind → String
  | .requestTransformFailed => "RequestTransformFailed"
  | .requestFailed => "RequestFailed"
  | .readFailed => "ReadFailed"

/-- A Go error value as the client package observes it: a classified
status error of this package carrying a description, a
statuserror.StatusErr built by the default error policy, or any other
error known only through its message. -/
inductive GoError where
  | statusErr (kind : ErrKind) (desc : String)
  | statusError (code : Int) (msg : String) (sources : List String)
  | plain (msg : String)
  deriving DecidableEq, Repr

/-- err.Error(): the message string of a Go error value. -/
def GoError.message : GoError → String
  | .statusErr k d => k.str ++ ": " ++ d
  | .statusError _ m _ => m
  | .plain m => m

/-- http.Response as the client consumes it: status code and line, headers,
an optional body stream (none models a nil Body), and the host of the
request that produced it (resp.Request.Host). -/
structure Response where
  statusCode : Int
  status : String
  header : Header
  body : Option String
  requestHost : String
  deriving DecidableEq, Repr

/-- A transformers.Transformer, reduced to the one method Result.Into
calls: DecodeFromReader over the body bytes and response headers,
returning an error message on failure. -/
structure Transformer where
  decode : String → Header → Option String

/-- transformers.TransformerMgr.NewTransformer, keyed by the MIME option
and the reflected type of the target. -/
def TransformerMgr := String → String → Except String Transformer

/-- The dynamic value passed as the body argument of Result.Into, tagged
by the capabilities its dynamic type implements. A writer carries whether
it also implements the Header() capability and the outcome io.Copy into
it would have (some msg models a copy error). writerAndErr implements
both the error and the io.Writer interfaces. -/
inductive Target where
  | nil
  | errValue (e : GoError)
  | writer (hasHeader : Bool) (copyErr : Option String)
  | writerAndErr (e : GoError) (hasHeader : Bool) (copyErr : Option String)
  | structured (shape : String)
  deriving DecidableEq, Repr

/-- Observable side effects of one Result.Into call, in order. -/
inductive Event where
  | closeBody
  | copyToWriter
  | resolveMime (mime : String)
  | decodeBody
  deriving DecidableEq, Repr

def Event.isClose : Event → Bool
  | .closeBody => true
  | _ => false

/-- How often the response body was closed during a trace. -/
def countClose (evs : List Event) : Nat :=
  (evs.filter Event.isClose).length

/-- The value and effect trace of one Result.Into call: returned metadata
and error, the Content-* headers propagated onto a header-capable writer
target (none when no such propagation happened), and the event trace. -/
structure IntoOut where
  meta : Option Metadata
  err : Option GoError
  sinkHeader : Option Header
  events : List Event
  deriving DecidableEq, Repr

/-- client.Result: response (none models nil), transformer manager,
error policy (none models a nil NewError function field), and the
pre-flight error field Err. -/
structure Result where
  response : Option Response
  mgr : TransformerMgr
  newError : Option (Response → Option GoError)
  err : Option GoError

/-- http.StatusOK. -/
def statusOK : Int := 200

/-- http.StatusMultipleChoices. -/
def statusMultipleChoices : Int := 300

/-- client.isOk, lines 216-218. -/
def isOk (code : Int) : Bool :=
  statusOK ≤ code && code < statusMultipleChoices

/-- The deferred close of Result.Into lines 157-161: runs on every return
path, closes the body exactly when a response with a non-nil body is
present. -/
def deferredClose (r : Result) : List Event :=
  match r.response with
  | some resp => if resp.body.isSome then [Event.closeBody] else []
  | none => []

/-- Lines 193-197 of Result.Into: the content type used for transformer
lookup, with MIME parameters stripped when non-empty. -/
def strippedContentType (meta : Metadata) : String :=
  let contentType := metaGet meta headerContentType
  if contentType ≠ "" then parseMediaType contentType else contentType

/-- Lines 193-202 of Result.Into: resolve the transformer for the
response content type (parameters stripped) and the target shape. -/
def lookupTransformer (mgr : TransformerMgr) (meta : Metadata) (shape : String) :
    Except String Transformer :=
  mgr (strippedContentType meta) shape

/-- Lines 182-187 of Result.Into: the Content-* response headers set on a
header-capable writer target. -/
def contentHeaders (meta : Metadata) : Header :=
  meta.filter (fun kv => "Content-".isPrefixOf kv.1)

/-- The type switch of Result.Into lines 173-211, after the status gate
already substituted the target. Go checks the cases in source order, so a
value implementing both error and io.Writer takes the error case. The
pair of the close events is appended by the caller (the deferred close
runs last). -/
def intoDispatch (mgr : TransformerMgr) (meta : Metadata) (bodyContent : String)
    (target : Target) : IntoOut :=
  match target with
  | .nil => { meta := some meta, err := none, sinkHeader := none, events := [] }
  | .errValue e => { meta := some meta, err := some e, sinkHeader := none, events := [] }
  | .writerAndErr e _ _ =>
    { meta := some meta, err := some e, sinkHeader := none, events := [] }
  | .writer hasHeader copyErr =>
    let sink := if hasHeader then some (contentHeaders meta) else none
    match copyErr with
    | some m =>
      { meta := some meta, err := some (.statusErr .readFailed m),
        sinkHeader := sink, events := [Event.copyToWriter] }
    | none =>
      { meta := some meta, err := none, sinkHeader := sink,
        events := [Event.copyToWriter] }
  | .structured shape =>
    match lookupTransformer mgr meta shape with
    | .error m =>
      { meta := some meta, err := some (.statusErr .readFailed m),
        sinkHeader := none, events := [Event.resolveMime (strippedContentType meta)] }
    | .ok tr =>
      match tr.decode bodyContent meta with
      | some m =>
        { meta := some meta, err := some (.statusErr .readFailed m),
          sinkHeader := none,
          events := [Event.resolveMime (strippedContentType meta), Event.decodeBody] }
      | none =>
        { meta := some meta, err := none, sinkHeader := none,
          events := [Event.resolveMime (strippedContentType meta), Event.decodeBody] }

/-- client.Result.Into, lines 156-214. Returns none on the paths where
the Go code dereferences a nil response or calls a nil NewError. The
deferred body close contributes the trailing event on every path. -/
def Result.Into (r : Result) (target : Target) : Option IntoOut :=
  match r.err with
  | some e =>
    some { meta := none, err := some e, sinkHeader := none, events := deferredClose r }
  | none =>
    match r.response with
    | none => none
    | some resp =>
      let meta : Metadata := resp.header
      let gated : Option Target :=
        if isOk resp.statusCode then some target
        else
          match r.newError with
          | none => none
          | some newErr =>
            match newErr resp with
            | some e => some (Target.errValue e)
            | none => some Target.nil
      match gated with
      | none => none
      | some target1 =>
        let out := intoDispatch r.mgr meta (resp.body.getD "") target1
        some { out with events := out.events ++ deferredClose r }

/-- http.Request as the client builds it: method, url, and headers. -/
structure Request where
  method : String
  url : String
  header : Header
  deriving DecidableEq, Repr

/-- The typed input descriptor: optional declared method
(httptransport.MethodDescriber) and path (httptransport.PathDescriber);
none models a value that does not implement the interface. The fields
the transformer manager serializes are not visible to this file. -/
structure Descriptor where
  method : Option String
  path : Option String
  deriving DecidableEq, Repr

/-- client.Client. Protocol, Host, Port are the connection parameters
(Port is a Go int16, modelled as Int). newError is the pluggable error
policy (none models the nil field before SetDefaults). buildRequest
stands for RequestTransformerMgr.NewRequest(method, url, req), an
external collaborator. mgr is the transformer registry handed to every
Result. The log round-tripper and transformer-manager defaults of
SetDefaults concern external collaborators and are not modelled. -/
structure Client where
  protocol : String
  host : String
  port : Int
  newError : Option (Response → Option GoError)
  buildRequest : String → String → Descriptor → Except String Request
  mgr : TransformerMgr

/-- client.Client.toUrl, lines 105-115. -/
def Client.toUrl (c : Client) (path : String) : String :=
  let protocol := if c.protocol = "" then "http" else c.protocol
  let url := protocol ++ "://" ++ c.host
  let url := if c.port > 0 then url ++ ":" ++ toString c.port else url
  url ++ path

/-- client.Client.newRequest, lines 117-147: resolve declared method and
path, build the wire request through the transformer manager, wrap a
build failure as RequestTransformFailed, then Header.Add every merged
caller metadata value. -/
def Client.newRequest (c : Client) (req : Descriptor) (metas : List Metadata) :
    Except GoError Request :=
  let method := (req.method).getD ""
  let path := (req.path).getD ""
  match c.buildRequest method (c.toUrl path) req with
  | .error e => .error (.statusErr .requestTransformFailed e)
  | .ok request =>
    .ok { request with header := addMetas request.header (fromMetas metas) }

/-- The req argument of Client.Do: either an already-built raw request
(the type assertion of line 72 succeeds) or a typed descriptor. -/
inductive DoInput where
  | raw (request : Request)
  | descriptor (d : Descriptor)

/-- The request Client.Do sends: the raw request as-is, or the one
newRequest builds from the descriptor (lines 72-83). -/
def Client.builtRequest (c : Client) (req : DoInput) (metas : List Metadata) :
    Except GoError Request :=
  match req with
  | .raw request => .ok request
  | .descriptor d => c.newRequest d metas

/-- client.Client.Do, lines 71-103. The HTTP executor (the resolved
httpClient.Do of line 90) is an external collaborator passed as a
function; its error carries only its message string. -/
def Client.Do (c : Client) (exec : Request → Except String Response)
    (req : DoInput) (metas : List Metadata) : Result :=
  match c.builtRequest req metas with
  | .error e =>
    { err := some (.statusErr .requestFailed e.message),
      newError := c.newError, mgr := c.mgr, response := none }
  | .ok request =>
    match exec request with
    | .error msg =>
      { err := some (.statusErr .requestFailed msg),
        newError := c.newError, mgr := c.mgr, response := none }
    | .ok resp =>
      { err := none, newError := c.newError, mgr := c.mgr, response := some resp }

/-- The default error policy installed by SetDefaults, lines 47-53:
StatusErr with Code = StatusCode * 1e6, Msg = the status line, Sources =
the host of the originating request. -/
def defaultNewError (resp : Response) : Option GoError :=
  some (.statusError (resp.statusCode * 1000000) resp.status [resp.requestHost])

/-- client.Client.SetDefaults lines 46-54, restricted to the NewError
field (the transformer-manager and round-tripper defaults construct
external collaborators). -/
def Client.SetDefaults (c : Client) : Client :=
  match c.newError with
  | none => { c with newError := some defaultNewError }
  | some _ => c

/-- Events by which Result.Into touches the target: copying bytes into
it, resolving a transformer for its shape, or decoding into it. -/
def Event.touchesTarget : Event → Bool
  | .closeBody => false
  | .copyToWriter => true
  | .resolveMime _ => true
  | .decodeBody => true

/-- A transformer whose decode always succeeds, as a concrete registry
entry for evaluation. -/
def exTransformer : Transformer := ⟨fun _ _ => none⟩

/-- A concrete registry resolving every MIME/shape pair. -/
def exMgr : TransformerMgr := fun _ _ => .ok exTransformer

def exHeaderJson : Header := [(headerContentType, ["application/json"])]

def exResp200 : Response :=
  { statusCode := 200, status := "200 OK", header := exHeaderJson,
    body := some "data", requestHost := "example.com" }

def exResp404 : Response :=
  { statusCode := 404, status := "404 Not Found", header := exHeaderJson,
    body := some "data", requestHost := "example.com" }

def exResult200 : Result :=
  { response := some exResp200, mgr := exMgr, newError := some defaultNewError, err := none }

def exResult404 : Result :=
  { response := some exResp404, mgr := exMgr, newError := some defaultNewError, err := none }

def exErr : GoError := .plain "boom"

theorem countClose_append (a b : List Event) :
    countClose (a ++ b) = countClose a + countClose b := by
  simp [countClose, List.filter_append]

theorem countClose_intoDispatch (mgr : TransformerMgr) (meta : Metadata)
    (bc : String) (t : Target) : countClose (intoDispatch mgr meta bc t).events = 0 := by
  cases t with
  | nil => rfl
  | errValue e => rfl
  | writer hh ce => cases ce <;> rfl
  | writerAndErr e hh ce => rfl
  | structured shape =>
    unfold intoDispatch
    rcases htr : lookupTransformer mgr meta shape with m | tr
    · simp only [htr]; rfl
    · simp only [htr]
      rcases hdec : tr.decode bc meta with _ | m <;> simp only [hdec] <;> rfl

theorem countClose_deferredClose (r : Result) :
    countClose (deferredClose r) =
      (match r.response with
       | some resp => if resp.body.isSome then 1 else 0
       | none => 0) := by
  rcases hr : r.response with _ | resp
  · simp [deferredClose, hr, countClose]
  · rcases hb : resp.body with _ | b <;>
      simp [deferredClose, hr, hb, countClose, Event.isClose]

theorem filter_touches_deferredClose (r : Result) :
    (deferredClose r).filter Event.touchesTarget = [] := by
  rcases hr : r.response with _ | resp
  · simp [deferredClose, hr]
  · rcases hb : resp.body with _ | b <;>
      simp [deferredClose, hr, hb, Event.touchesTarget]


theorem headerValues_nil (k : String) : headerValues [] k = [] := rfl

theorem headerValues_cons (k0 : String) (vs : List String) (rest : Header) (k2 : String) :
    headerValues ((k0, vs) :: rest) k2 = if k0 = k2 then vs else headerValues rest k2 := by
  by_cases h : k0 = k2 <;> simp [headerValues, List.find?, h]

theorem headerAdd_cons_same (k : String) (vs : List String) (rest : Header) (v : String) :
    headerAdd ((k, vs) :: rest) k v = (k, vs ++ [v]) :: rest := by
  simp [headerAdd]

theorem headerAdd_cons_other (k0 : String) (vs : List String) (rest : Header)
    (k v : String) (h : k0 ≠ k) :
    headerAdd ((k0, vs) :: rest) k v = (k0, vs) :: headerAdd rest k v := by
  simp [headerAdd, h]

theorem headerValues_headerAdd_same (h : Header) (k v : String) :
    headerValues (headerAdd h k v) k = headerValues h k ++ [v] := by
  induction h with
  | nil => simp [headerAdd, headerValues_cons, headerValues_nil]
  | cons kv rest ih =>
    obtain ⟨k0, vs⟩ := kv
    by_cases h0 : k0 = k
    · subst h0
      rw [headerAdd_cons_same, headerValues_cons, headerValues_cons]
      simp
    · rw [headerAdd_cons_other _ _ _ _ _ h0, headerValues_cons, headerValues_cons,
        if_neg h0, if_neg h0, ih]

theorem headerValues_headerAdd_other (h : Header) (k v k2 : String) (hne : k2 ≠ k) :
    headerValues (headerAdd h k v) k2 = headerValues h k2 := by
  have hne2 : k ≠ k2 := Ne.symm hne
  induction h with
  | nil => simp [headerAdd, headerValues_cons, headerValues_nil, hne2]
  | cons kv rest ih =>
    obtain ⟨k0, vs⟩ := kv
    by_cases h0 : k0 = k
    · subst h0
      rw [headerAdd_cons_same, headerValues_cons, headerValues_cons,
        if_neg hne2, if_neg hne2]
    · rw [headerAdd_cons_other _ _ _ _ _ h0, headerValues_cons, headerValues_cons, ih]

theorem headerValues_addAllValues_same (vs : List String) (h : Header) (k : String) :
    headerValues (addAllValues h k vs) k = headerValues h k ++ vs := by
  induction vs generalizing h with
  | nil => simp [addAllValues]
  | cons v rest ih =>
    have hstep : addAllValues h k (v :: rest) = addAllValues (headerAdd h k v) k rest := rfl
    rw [hstep, ih, headerValues_headerAdd_same]
    simp

theorem headerValues_addAllValues_other (vs : List String) (h : Header) (k k2 : String)
    (hne : k2 ≠ k) :
    headerValues (addAllValues h k vs) k2 = headerValues h k2 := by
  induction vs generalizing h with
  | nil => simp [addAllValues]
  | cons v rest ih =>
    have hstep : addAllValues h k (v :: rest) = addAllValues (headerAdd h k v) k rest := rfl
    rw [hstep, ih, headerValues_headerAdd_other _ _ _ _ hne]

theorem headerValues_addMetas (m : Metadata) (h : Header) (k : String) :
    headerValues (addMetas h m) k = headerValues h k ++ metaValues m k := by
  induction m generalizing h with
  | nil => simp [addMetas, metaValues]
  | cons kv rest ih =>
    obtain ⟨k0, vs⟩ := kv
    have hstep : addMetas h ((k0, vs) :: rest) = addMetas (addAllValues h k0 vs) rest := rfl
    rw [hstep, ih]
    by_cases h0 : k0 = k
    · subst h0
      rw [headerValues_addAllValues_same]
      simp [metaValues]
    · have hne : k ≠ k0 := Ne.symm h0
      rw [headerValues_addAllValues_other _ _ _ _ hne]
      simp [metaValues, h0]

/-- C1: for every Result holding a response whose status code is not in
[200, 300), Into ignores the target (no copy, no transformer
resolution, no decode happens) and returns exactly the error the policy
NewError constructs from the response, whatever the target was. -/
theorem into_status_gate_overrides_target (r : Result) (resp : Response)
    (nf : Response → Option GoError) (target : Target)
    (he : r.err = none) (hr : r.response = some resp) (hn : r.newError = some nf)
    (hs : ¬ (200 ≤ resp.statusCode ∧ resp.statusCode < 300)) :
    r.Into target =
      some (IntoOut.mk (some resp.header) (nf resp) none (deferredClose r)) ∧
    (deferredClose r).filter Event.touchesTarget = [] := by
  have hok : isOk resp.statusCode = false := by
    simp only [isOk, statusOK, statusMultipleChoices]
    simp only [Bool.and_eq_false_iff, decide_eq_false_iff_not, not_le, not_lt]
    omega
  refine ⟨?_, filter_touches_deferredClose r⟩
  rcases hne : nf resp with _ | e <;>
    simp [Result.Into, he, hr, hok, hn, hne, intoDispatch]

/-- C1 witness: a 404 response with a structured target yields the
default-policy error, not a decode. -/
theorem into_status_gate_overrides_target_witness :
    exResult404.Into (Target.structured "T") =
      some (IntoOut.mk (some exHeaderJson)
        (some (.statusError 404000000 "404 Not Found" ["example.com"]))
        none (deferredClose exResult404)) ∧
    (deferredClose exResult404).filter Event.touchesTarget = [] :=
  into_status_gate_overrides_target exResult404 exResp404 defaultNewError
    (Target.structured "T") rfl rfl rfl (by decide)

/-- C4: a Result with a recorded pre-flight error returns it at once:
no metadata, and no event that touches the target (no copy, no
transformer resolution, no decode). -/
theorem into_preflight_error_returned (r : Result) (target : Target) (e : GoError)
    (h : r.err = some e) :
    r.Into target = some (IntoOut.mk none (some e) none (deferredClose r)) ∧
    (deferredClose r).filter Event.touchesTarget = [] :=
  ⟨by simp [Result.Into, h], filter_touches_deferredClose r⟩

/-- A Result carrying only a pre-flight RequestFailed error, as Client.Do
builds on executor failure. -/
def exResultPreflight : Result :=
  { response := none, mgr := exMgr, newError := some defaultNewError,
    err := some (.statusErr .requestFailed "conn refused") }

/-- C4 witness: a pre-flight RequestFailed error is returned as-is for a
writer target, with no target-touching event. -/
theorem into_preflight_error_returned_witness :
    exResultPreflight.Into (Target.writer false none) =
      some (IntoOut.mk none (some (.statusErr .requestFailed "conn refused"))
        none (deferredClose exResultPreflight)) ∧
    (deferredClose exResultPreflight).filter Event.touchesTarget = [] :=
  into_preflight_error_returned exResultPreflight (Target.writer false none)
    (.statusErr .requestFailed "conn refused") rfl

/-- C2: on every path on which Into returns, the body-close event occurs
exactly once when a response with a non-nil body is present, and never
otherwise. -/
theorem into_closes_body_exactly_once (r : Result) (target : Target) (out : IntoOut)
    (h : r.Into target = some out) :
    countClose out.events =
      (match r.response with
       | some resp => if resp.body.isSome then 1 else 0
       | none => 0) := by
  rw [← countClose_deferredClose r]
  rcases he : r.err with _ | e
  · simp only [Result.Into, he] at h
    rcases hr : r.response with _ | resp
    · simp [hr] at h
    · simp only [hr] at h
      rcases hok : isOk resp.statusCode with _ | _
      · simp only [hok, Bool.false_eq_true, if_false] at h
        rcases hn : r.newError with _ | nf
        · simp [hn] at h
        · simp only [hn] at h
          rcases hne : nf resp with _ | e2 <;>
            · simp only [hne, Option.some.injEq] at h
              rw [← h]
              simp only []
              rw [countClose_append, countClose_intoDispatch]
              exact Nat.zero_add _
      · simp only [hok, if_true, Option.some.injEq] at h
        rw [← h]
        simp only []
        rw [countClose_append, countClose_intoDispatch]
        exact Nat.zero_add _
  · simp only [Result.Into, he, Option.some.injEq] at h
    rw [← h]

/-- C2 witness: a 200 response with a body, drained by a nil target,
closes the body exactly once. -/
theorem into_closes_body_exactly_once_witness :
    countClose (IntoOut.mk (some exHeaderJson) none none [Event.closeBody]).events =
      (match exResult200.response with
       | some resp => if resp.body.isSome then 1 else 0
       | none => 0) :=
  into_closes_body_exactly_once exResult200 Target.nil
    (IntoOut.mk (some exHeaderJson) none none [Event.closeBody]) (by decide)

/-- C3 counterexample: the claim says a target implementing both the
writer and the error capability is treated as a byte sink. On a 200
response, Into applied to such a target returns it as the error and
records no copy event: the type switch of lines 177-211 checks the
error case before the writer case. -/
theorem into_both_capabilities_counterexample :
    exResult200.Into (Target.writerAndErr exErr true (some "copy failed")) =
      some (IntoOut.mk (some exHeaderJson) (some exErr) none [Event.closeBody]) := by
  decide

/-- C3 amended: in the dispatch of Into the error capability is tested
first, then the writer capability, then the generic structured decode;
a target implementing both the writer and the error capability is
returned as the error of the call, and no bytes are copied into it. -/
theorem into_error_capability_before_writer (r : Result) (resp : Response)
    (e : GoError) (hh : Bool) (ce : Option String)
    (he : r.err = none) (hr : r.response = some resp)
    (hs : 200 ≤ resp.statusCode ∧ resp.statusCode < 300) :
    r.Into (Target.writerAndErr e hh ce) =
      some (IntoOut.mk (some resp.header) (some e) none (deferredClose r)) := by
  have hok : isOk resp.statusCode = true := by
    simp only [isOk, statusOK, statusMultipleChoices]
    simp only [Bool.and_eq_true, decide_eq_true_eq]
    omega
  simp [Result.Into, he, hr, hok, intoDispatch]

/-- C3 amended witness: on a 200 response, a target implementing both
capabilities (whose copy would even fail) is returned as the error,
with no copy attempted. -/
theorem into_error_capability_before_writer_witness :
    exResult200.Into (Target.writerAndErr exErr false (some "copy failed")) =
      some (IntoOut.mk (some exHeaderJson) (some exErr) none
        (deferredClose exResult200)) :=
  into_error_capability_before_writer exResult200 exResp200 exErr false
    (some "copy failed") rfl rfl (by decide)

/-- C5 counterexample: the claim says a nil target yields a nil error
regardless of the status code. On a 404 response with a nil target,
Into returns the default-policy error, because the status gate of line
169-171 replaces the nil target with the constructed error before the
nil check of line 173. -/
theorem into_nil_target_status_counterexample :
    exResult404.Into Target.nil =
      some (IntoOut.mk (some exHeaderJson)
        (some (.statusError 404000000 "404 Not Found" ["example.com"]))
        none [Event.closeBody]) := by
  decide

/-- C5 amended: for every Result with a response whose status code is in
[200, 300), Into with a nil target returns the response-header Metadata
and no error, with the body still closed; for other status codes the
nil target is first replaced by the error the policy constructs, which
is then returned instead. -/
theorem into_nil_target_ok_status (r : Result) (resp : Response)
    (he : r.err = none) (hr : r.response = some resp)
    (hs : 200 ≤ resp.statusCode ∧ resp.statusCode < 300) :
    r.Into Target.nil =
      some (IntoOut.mk (some resp.header) none none (deferredClose r)) := by
  have hok : isOk resp.statusCode = true := by
    simp only [isOk, statusOK, statusMultipleChoices]
    simp only [Bool.and_eq_true, decide_eq_true_eq]
    omega
  simp [Result.Into, he, hr, hok, intoDispatch]

/-- C5 amended witness: a 200 response with a nil target returns the
headers, no error, and the single body close. -/
theorem into_nil_target_ok_status_witness :
    exResult200.Into Target.nil =
      some (IntoOut.mk (some exHeaderJson) none none (deferredClose exResult200)) :=
  into_nil_target_ok_status exResult200 exResp200 rfl rfl (by decide)

/-- C6: lookupTransformer is the registry-resolution step the structured
branch of Into performs (lines 193-202): a response declaring
Content-Type application/json with a charset parameter and one declaring
plain application/json resolve the identical Transformer, for every
registry and every target shape, because the MIME parameters are
stripped before the lookup. -/
theorem lookupTransformer_strips_mime_parameters (mgr : TransformerMgr) (shape : String) :
    lookupTransformer mgr [(headerContentType, ["application/json; charset=utf-8"])] shape =
      lookupTransformer mgr [(headerContentType, ["application/json"])] shape := by
  have h1 : strippedContentType [(headerContentType, ["application/json; charset=utf-8"])] =
      "application/json" := by decide
  have h2 : strippedContentType [(headerContentType, ["application/json"])] =
      "application/json" := by decide
  unfold lookupTransformer
  rw [h1, h2]

/-- C7: newRequest adds caller metadata to the built request without
replacing descriptor-produced values: a descriptor-produced header X: a
together with caller metadata X: b yields both a and b under X, in that
order. -/
theorem newRequest_appends_metadata (c : Client) (d : Descriptor)
    (metas : List Metadata) (X a b : String) (request : Request)
    (hb : c.buildRequest ((d.method).getD "") (c.toUrl ((d.path).getD "")) d =
      .ok request)
    (ha : headerValues request.header X = [a])
    (hm : metaValues (fromMetas metas) X = [b]) :
    ∃ req2, c.newRequest d metas = .ok req2 ∧ headerValues req2.header X = [a, b] := by
  refine ⟨{ request with header := addMetas request.header (fromMetas metas) }, ?_, ?_⟩
  · simp only [Client.newRequest, hb]
  · rw [headerValues_addMetas, ha, hm]
    rfl

/-- The wire request a concrete build produces, carrying X: a. -/
def exBuildReq : Request :=
  { method := "GET", url := "http://h/x", header := [("X", ["a"])] }

/-- A concrete client whose build step returns exBuildReq. -/
def exClient : Client :=
  { protocol := "", host := "h", port := 0, newError := none,
    buildRequest := fun _ _ _ => .ok exBuildReq, mgr := exMgr }

def exDescriptor : Descriptor := { method := some "GET", path := some "/x" }

/-- C7 witness: descriptor header X: a plus caller metadata X: b gives
values a then b under X in the built request. -/
theorem newRequest_appends_metadata_witness :
    ∃ req2, exClient.newRequest exDescriptor [[("X", ["b"])]] = .ok req2 ∧
      headerValues req2.header "X" = ["a", "b"] :=
  newRequest_appends_metadata exClient exDescriptor [[("X", ["b"])]] "X" "a" "b"
    exBuildReq rfl (by decide) (by decide)

/-- C8: when the executor fails (no response), Do yields a Result whose
error is RequestFailed carrying the executor message and whose response
is nil; when building the request fails, Do yields a Result whose error
is RequestFailed wrapping the message of the build failure, and no
response. -/
theorem do_failure_classification (c : Client) (exec : Request → Except String Response)
    (req : DoInput) (metas : List Metadata) :
    (∀ request msg, c.builtRequest req metas = .ok request →
      exec request = .error msg →
      (c.Do exec req metas).err = some (.statusErr .requestFailed msg) ∧
      (c.Do exec req metas).response = none) ∧
    (∀ e, c.builtRequest req metas = .error e →
      (c.Do exec req metas).err = some (.statusErr .requestFailed e.message) ∧
      (c.Do exec req metas).response = none) := by
  constructor
  · intro request msg hbr hex
    constructor <;> simp [Client.Do, hbr, hex]
  · intro e hbr
    constructor <;> simp [Client.Do, hbr]

/-- An executor that always fails at the transport layer. -/
def exExecFail : Request → Except String Response := fun _ => .error "conn refused"

/-- A concrete client whose build step fails. -/
def exClientBuildFail : Client :=
  { protocol := "", host := "h", port := 0, newError := none,
    buildRequest := fun _ _ _ => .error "bad field", mgr := exMgr }

/-- C8 witness: transport failure gives RequestFailed and no response;
build failure gives RequestFailed wrapping the RequestTransformFailed
message, and no response. -/
theorem do_failure_classification_witness :
    ((exClient.Do exExecFail (.raw exBuildReq) []).err =
        some (.statusErr .requestFailed "conn refused") ∧
      (exClient.Do exExecFail (.raw exBuildReq) []).response = none) ∧
    ((exClientBuildFail.Do exExecFail (.descriptor exDescriptor) []).err =
        some (.statusErr .requestFailed "RequestTransformFailed: bad field") ∧
      (exClientBuildFail.Do exExecFail (.descriptor exDescriptor) []).response = none) :=
  ⟨(do_failure_classification exClient exExecFail (.raw exBuildReq) []).1
      exBuildReq "conn refused" rfl rfl,
    (do_failure_classification exClientBuildFail exExecFail
        (.descriptor exDescriptor) []).2
      (.statusErr .requestTransformFailed "bad field") rfl⟩

/-- C9: when the error policy is unset, SetDefaults installs the default
policy, which maps a response to a StatusErr whose code is the status
code scaled by 1e6, whose message is the status line, and whose sources
hold the host of the originating request. -/
theorem setDefaults_installs_default_policy (c : Client) (resp : Response)
    (h : c.newError = none) :
    (c.SetDefaults).newError = some defaultNewError ∧
    defaultNewError resp =
      some (.statusError (resp.statusCode * 1000000) resp.status [resp.requestHost]) := by
  constructor
  · simp [Client.SetDefaults, h]
  · rfl

/-- C9 witness: the default policy maps the concrete 404 response to
code 404000000, the status line, and the request host. -/
theorem setDefaults_installs_default_policy_witness :
    (exClient.SetDefaults).newError = some defaultNewError ∧
    defaultNewError exResp404 =
      some (.statusError 404000000 "404 Not Found" ["example.com"]) :=
  setDefaults_installs_default_policy exClient exResp404 rfl

/-- C10: with an empty Protocol the built URL uses scheme http, and the
port segment is present exactly when Port is positive. -/
theorem toUrl_default_scheme (c : Client) (path : String) (h : c.protocol = "") :
    c.toUrl path =
      "http://" ++ c.host ++
        (if c.port > 0 then ":" ++ toString c.port else "") ++ path := by
  by_cases hp : c.port > 0 <;>
    simp [Client.toUrl, h, hp, String.append_assoc]

/-- C10 witness: with empty protocol, port 8080 appears after the host
and port 0 is omitted. -/
theorem toUrl_default_scheme_witness :
    ({ exClient with port := 8080 } : Client).toUrl "/x" = "http://h:8080/x" ∧
    exClient.toUrl "/x" = "http://h/x" := by
  constructor
  · rw [toUrl_default_scheme ({ exClient with port := 8080 } : Client) "/x" rfl]
    decide
  · rw [toUrl_default_scheme exClient "/x" rfl]
    decide
